import Mathlib

/-!
Shallow embedding of the bug-tracking core of `bug_tracker.py`.

The MongoDB store is modelled as an explicit state (`Store`) holding the
`bugs` collection, the `audit_logs` collection, and the ObjectId generator
counter.  `datetime.datetime.utcnow()` is modelled by an explicit `now : Nat`
parameter supplied to each operation.  BSON `ObjectId` values are modelled by
their 24-character hexadecimal string form; constructing `ObjectId(s)` from a
string that is not 24 hex characters raises `bson.errors.InvalidId` in Python,
which is modelled by `Except.error`.
-/

set_option maxHeartbeats 1000000

/-- One embedded log entry of a bug document (`log_entry` in `add_test_log`). -/
structure LogEntry where
  timestamp : Nat
  status : String
  details : String
deriving Repr, DecidableEq

/-- One document of the `audit_logs` collection (`log_audit_event`). -/
structure AuditEvent where
  timestamp : Nat
  user : String
  action : String
  bug_id : Option String
  details : String
deriving Repr, DecidableEq

/-- One document of the `bugs` collection, shaped as `create_bug` builds it
(`_id` is the hex string of the store-assigned ObjectId). -/
structure BugDoc where
  _id : String
  title : String
  description : String
  severity : String
  priority : String
  status : String
  module : String
  assignee : String
  git_commit : String
  created_at : Nat
  updated_at : Nat
  logs : List LogEntry
deriving Repr, DecidableEq

/-- The database state: the `bugs` collection, the `audit_logs` collection,
and the ObjectId generator counter. -/
structure Store where
  bugs : List BugDoc
  audits : List AuditEvent
  counter : Nat
deriving Repr, DecidableEq

/-- A character allowed in the hexadecimal form of an ObjectId. -/
def isHexChar (c : Char) : Bool :=
  c.isDigit || (('a' ≤ c) && (c ≤ 'f')) || (('A' ≤ c) && (c ≤ 'F'))

/-- `ObjectId(s)` succeeds exactly on 24-character hex strings. -/
def isValidObjectId (s : String) : Bool :=
  s.length == 24 && s.toList.all isHexChar

/-- Python `str.lower()` (structural definition over the character list, so
that concrete instances evaluate). -/
def strLower (s : String) : String :=
  ⟨s.toList.map Char.toLower⟩

/-- `ObjectId(s)`: returns the canonical (lower-case) hex form on a valid
24-hex-character string, `none` when the constructor would raise `InvalidId`. -/
def parseObjectId (s : String) : Option String :=
  if isValidObjectId s then some (strLower s) else none

/-- Hex digit character for a value `< 16` (lower case, as `str(ObjectId)`). -/
def hexDigit (n : Nat) : Char :=
  if n < 10 then Char.ofNat (48 + n) else Char.ofNat (87 + n)

/-- Fixed-width big-endian hex rendering. -/
def natToHexAux : Nat → Nat → List Char
  | 0, _ => []
  | w + 1, v => natToHexAux w (v / 16) ++ [hexDigit (v % 16)]

/-- The hex string of the ObjectId that the store assigns for generator
state `n` (fresh ids: the counter increases on every insert). -/
def oidOfCounter (n : Nat) : String :=
  ⟨natToHexAux 24 n⟩

/-- `log_audit_event(action, bug_id, details)`: inserts one document into the
`audit_logs` collection with the fixed prototype user `"admin"`. -/
def log_audit_event (s : Store) (now : Nat) (action : String)
    (bug_id : Option String) (details : String) : Store :=
  { s with audits := s.audits ++
      [{ timestamp := now, user := "admin", action := action,
         bug_id := bug_id, details := details }] }

/-- `create_bug(title, description, severity, priority, module, assignee,
git_commit)`: builds the document (severity and priority lower-cased, status
`"open"`, `created_at = updated_at = now`, empty logs, `git_commit or "N/A"`),
inserts it, logs a `CREATE_BUG` audit event and returns `str(inserted_id)`. -/
def create_bug (s : Store) (now : Nat)
    (title description severity priority module assignee : String)
    (git_commit : Option String) : String × Store :=
  let bug_doc : BugDoc :=
    { _id := oidOfCounter s.counter
      title := title
      description := description
      severity := strLower severity
      priority := strLower priority
      status := "open"
      module := module
      assignee := assignee
      git_commit :=
        match git_commit with
        | none => "N/A"
        | some g => if g == "" then "N/A" else g
      created_at := now
      updated_at := now
      logs := [] }
  let s1 : Store :=
    { s with bugs := s.bugs ++ [bug_doc], counter := s.counter + 1 }
  let bug_id := bug_doc._id
  (bug_id, log_audit_event s1 now "CREATE_BUG" (some bug_id) ("Title: " ++ title))

/-- `collection.update_one(filter, update)`: applies `f` to the first document
matching `p` (documents are unique by `_id` in practice, and MongoDB updates
at most one).  Returns the new collection and `modified_count`. -/
def updateFirst (p : BugDoc → Bool) (f : BugDoc → BugDoc) :
    List BugDoc → List BugDoc × Nat
  | [] => ([], 0)
  | b :: bs =>
    if p b then (f b :: bs, 1)
    else
      let r := updateFirst p f bs
      (b :: r.1, r.2)

/-- `add_test_log(bug_id, status, details)`: `ObjectId(bug_id)` raises on a
malformed id (modelled as `Except.error`); otherwise pushes one lower-cased
log entry and refreshes `updated_at` on the matching document, emitting an
`ADD_ACTIVITY` audit event and returning `True` exactly when
`modified_count == 1`, else returns `False`. -/
def add_test_log (s : Store) (now : Nat) (bug_id status details : String) :
    Except String (Bool × Store) :=
  match parseObjectId bug_id with
  | none => Except.error "InvalidId"
  | some oid =>
    let log_entry : LogEntry :=
      { timestamp := now, status := strLower status, details := details }
    let r := updateFirst (fun b => b._id == oid)
      (fun b => { b with logs := b.logs ++ [log_entry], updated_at := now })
      s.bugs
    let s1 : Store := { s with bugs := r.1 }
    if r.2 == 1 then
      Except.ok (true, log_audit_event s1 now "ADD_ACTIVITY" (some bug_id)
        ("Type: " ++ status))
    else Except.ok (false, s1)

/-- `update_bug_status(bug_id, new_status)`: `ObjectId(bug_id)` raises on a
malformed id; otherwise sets `status` to `new_status.lower()` (no membership
check against the four defined values) and refreshes `updated_at` on the
matching document, emitting an `UPDATE_STATUS` audit event and returning
`True` exactly when `modified_count == 1`, else returns `False`. -/
def update_bug_status (s : Store) (now : Nat) (bug_id new_status : String) :
    Except String (Bool × Store) :=
  match parseObjectId bug_id with
  | none => Except.error "InvalidId"
  | some oid =>
    let r := updateFirst (fun b => b._id == oid)
      (fun b => { b with status := strLower new_status, updated_at := now })
      s.bugs
    let s1 : Store := { s with bugs := r.1 }
    if r.2 == 1 then
      Except.ok (true, log_audit_event s1 now "UPDATE_STATUS" (some bug_id)
        ("New Status: " ++ new_status))
    else Except.ok (false, s1)

/-- `get_bug_by_id(bug_id)`: `ObjectId(bug_id)` raises on a malformed id;
otherwise `find_one` returns the first matching document or `None`. -/
def get_bug_by_id (s : Store) (bug_id : String) :
    Except String (Option BugDoc) :=
  match parseObjectId bug_id with
  | none => Except.error "InvalidId"
  | some oid => Except.ok (s.bugs.find? (fun b => b._id == oid))

/-- The `status` part of the `list_bugs` query dict:
`if status and status != "All": query["status"] = status.lower()`. -/
def statusConstraint (status : Option String) (b : BugDoc) : Bool :=
  match status with
  | none => true
  | some st => if st == "" || st == "All" then true else b.status == strLower st

/-- The `module` part of the `list_bugs` query dict:
`if module: query["module"] = module`. -/
def moduleConstraint (module : Option String) (b : BugDoc) : Bool :=
  match module with
  | none => true
  | some m => if m == "" then true else b.module == m

/-- The `severity` part of the `list_bugs` query dict:
`if severity and severity != "All": query["severity"] = severity.lower()`. -/
def severityConstraint (severity : Option String) (b : BugDoc) : Bool :=
  match severity with
  | none => true
  | some sv => if sv == "" || sv == "All" then true else b.severity == strLower sv

/-- The whole `list_bugs` query dict as a predicate on documents. -/
def listQuery (status module severity : Option String) (b : BugDoc) : Bool :=
  statusConstraint status b && moduleConstraint module b &&
    severityConstraint severity b

/-- The comparison `collection.find(query).sort("created_at", -1)` sorts by:
`created_at` descending. -/
def createdDesc (a b : BugDoc) : Bool :=
  decide (b.created_at ≤ a.created_at)

/-- `list_bugs(status, module, severity)`: fetches the documents matching the
query dict, sorted by `created_at` descending. -/
def list_bugs (s : Store) (status module severity : Option String) :
    List BugDoc :=
  (s.bugs.filter (listQuery status module severity)).mergeSort createdDesc

/-- Serialization of one embedded log entry as it lands in a CSV cell (pandas
renders the Python dict; the exact rendering is irrelevant, only that the
entry's data is carried into the cell). -/
def logEntryToString (e : LogEntry) : String :=
  toString e.timestamp ++ ":" ++ e.status ++ ":" ++ e.details

/-- Serialization of a `logs` field as it lands in a CSV cell. -/
def logsToString (logs : List LogEntry) : String :=
  toString (logs.map logEntryToString)

/-- The column set of the exported CSV: all top-level fields of the documents,
in the order they appear in a fetched document (`_id` first, then the
insertion order of `create_bug`, `logs` last). -/
def bugColumns : List String :=
  ["_id", "title", "description", "severity", "priority", "status", "module",
   "assignee", "git_commit", "created_at", "updated_at", "logs"]

/-- One CSV data row: every top-level field of the document, stringified, in
the `bugColumns` order (the `logs` list is rendered into its cell). -/
def bugRow (b : BugDoc) : List String :=
  [b._id, b.title, b.description, b.severity, b.priority, b.status, b.module,
   b.assignee, b.git_commit, toString b.created_at, toString b.updated_at,
   logsToString b.logs]

/-- `export_bugs_to_csv(bugs)`: `None` on the empty list, otherwise the CSV
as its list of rows — one header row, then one row per document (each document
is copied and its `_id` stringified before framing). -/
def export_bugs_to_csv (bugs : List BugDoc) : Option (List (List String)) :=
  match bugs with
  | [] => none
  | _ => some (bugColumns :: bugs.map bugRow)

/-- `needle` occurs at the head of `hay` (character lists). -/
def chStarts : List Char → List Char → Bool
  | _, [] => true
  | [], _ :: _ => false
  | a :: as, b :: bs => a == b && chStarts as bs

/-- `needle` occurs somewhere in `hay` (character lists); Python `in`. -/
def chFind : List Char → List Char → Bool
  | [], needle => needle.isEmpty
  | a :: as, needle => chStarts (a :: as) needle || chFind as needle

/-- Python `needle in hay` on strings. -/
def strContains (hay needle : String) : Bool :=
  chFind hay.toList needle.toList

/-- The View & Manage page's `priority` client-side predicate:
`b.get('priority') == priority_filter`. -/
def priorityPred (priority_filter : String) (b : BugDoc) : Bool :=
  b.priority == priority_filter

/-- The View & Manage page's `assignee` client-side predicate:
`assignee_filter.lower() in b.get('assignee', '').lower()`. -/
def assigneePred (assignee_filter : String) (b : BugDoc) : Bool :=
  strContains (strLower b.assignee) (strLower assignee_filter)

/-- The View & Manage page's global search predicate: `q = search_query.lower()`
found in the lower-cased title, description or module. -/
def searchPred (search_query : String) (b : BugDoc) : Bool :=
  strContains (strLower b.title) (strLower search_query) ||
  strContains (strLower b.description) (strLower search_query) ||
  strContains (strLower b.module) (strLower search_query)

/-- The View & Manage page's client-side filtering, applied in sequence after
the store-level fetch: priority (active unless `"All"`), assignee (active
unless empty), global search (active unless empty). -/
def clientFilter (priority_filter assignee_filter search_query : String)
    (bugs : List BugDoc) : List BugDoc :=
  let bugs1 :=
    if priority_filter != "All" then bugs.filter (priorityPred priority_filter)
    else bugs
  let bugs2 :=
    if assignee_filter != "" then bugs1.filter (assigneePred assignee_filter)
    else bugs1
  if search_query != "" then bugs2.filter (searchPred search_query) else bugs2

/-!
Reference-semantics model of `export_bugs_to_csv` for the aliasing question:
the Python records are shared, mutable dicts, so we model a heap of document
cells addressed by index, with the `_id` field tracking whether it still holds
the store's `ObjectId` or a stringified replacement.
-/

/-- The runtime value of a `_id` field: the `ObjectId` the store assigned, or
the string `str(...)` produced from it. -/
inductive IdVal where
  | oid (hex : String)
  | strv (hex : String)
deriving Repr, DecidableEq

/-- Python `str` on a `_id` value. -/
def strOfIdVal : IdVal → String
  | IdVal.oid h => h
  | IdVal.strv h => h

/-- A bug document as a mutable runtime dict: same fields as `BugDoc`, with
the `_id` field carried as a runtime `IdVal`. -/
structure BugDocH where
  _id : IdVal
  title : String
  description : String
  severity : String
  priority : String
  status : String
  module : String
  assignee : String
  git_commit : String
  created_at : Nat
  updated_at : Nat
  logs : List LogEntry
deriving Repr, DecidableEq

/-- The heap of live document dicts; an address is an index into `cells`. -/
structure Heap where
  cells : List BugDocH
deriving Repr, DecidableEq

/-- Allocate a fresh dict (`b.copy()` allocates): returns the heap with the
new cell appended and its address. -/
def Heap.alloc (h : Heap) (c : BugDocH) : Heap × Nat :=
  ({ cells := h.cells ++ [c] }, h.cells.length)

/-- In-place mutation of the dict at address `a` (`item['_id'] = ...`). -/
def Heap.write (h : Heap) (a : Nat) (c : BugDocH) : Heap :=
  { cells := h.cells.set a c }

/-- Read the dict at address `a`. -/
def Heap.read (h : Heap) (a : Nat) : Option BugDocH :=
  h.cells.get? a

/-- The row framed from a cleaned runtime dict. -/
def bugRowH (b : BugDocH) : List String :=
  [strOfIdVal b._id, b.title, b.description, b.severity, b.priority, b.status,
   b.module, b.assignee, b.git_commit, toString b.created_at,
   toString b.updated_at, logsToString b.logs]

/-- The `for b in bugs:` loop of `export_bugs_to_csv`: for each input address,
`item = b.copy()` allocates a fresh cell, `item['_id'] = str(item['_id'])`
mutates only that fresh cell, and the address is appended to `clean_bugs`. -/
def exportLoop (h : Heap) (bugs : List Nat) (clean : List Nat) :
    Heap × List Nat :=
  match bugs with
  | [] => (h, clean)
  | a :: rest =>
    match h.read a with
    | none => exportLoop h rest clean
    | some b =>
      let r := h.alloc b
      let h2 := r.1.write r.2 { b with _id := IdVal.strv (strOfIdVal b._id) }
      exportLoop h2 rest (clean ++ [r.2])

/-- `export_bugs_to_csv(bugs)` under reference semantics: `bugs` is a list of
addresses of live dicts; returns the final heap and the CSV rows built from
the cleaned copies. -/
def export_bugs_to_csv_h (h : Heap) (bugs : List Nat) :
    Heap × Option (List (List String)) :=
  match bugs with
  | [] => (h, none)
  | _ =>
    let r := exportLoop h bugs []
    (r.1, some (bugColumns :: (r.2.filterMap (fun a => r.1.read a)).map bugRowH))

/-- C1: For every creation input, `create_bug` persists a new record with
`status = "open"`, `logs = []`, and `created_at` equal to `updated_at`, emits
one `CREATE_BUG` audit event referencing the new id, and returns the newly
assigned identifier as a string. -/
theorem create_bug_persists_open_record (s : Store) (now : Nat)
    (title description severity priority module assignee : String)
    (git_commit : Option String) :
    ∃ doc ev,
      (create_bug s now title description severity priority module assignee
        git_commit).2.bugs = s.bugs ++ [doc] ∧
      doc.status = "open" ∧ doc.logs = [] ∧
      doc.created_at = now ∧ doc.updated_at = now ∧
      doc.created_at = doc.updated_at ∧
      (create_bug s now title description severity priority module assignee
        git_commit).2.audits = s.audits ++ [ev] ∧
      ev.action = "CREATE_BUG" ∧
      ev.bug_id = some (create_bug s now title description severity priority
        module assignee git_commit).1 ∧
      (create_bug s now title description severity priority module assignee
        git_commit).1 = doc._id := by
  refine ⟨_, _, rfl, rfl, rfl, rfl, rfl, rfl, rfl, rfl, rfl, rfl⟩

/-- Concrete 24-hex-character ObjectId used by concrete instances. -/
def OID1 : String := "0123456789abcdef01234567"

/-- A concrete log entry. -/
def WLOG : LogEntry :=
  { timestamp := 1, status := "failed", details := "unit test failed" }

/-- A concrete stored bug document with id `OID1` and one log entry. -/
def W1doc : BugDoc :=
  { _id := OID1, title := "Login broken", description := "login fails",
    severity := "high", priority := "p1", status := "open", module := "auth",
    assignee := "Unassigned", git_commit := "N/A", created_at := 1,
    updated_at := 1, logs := [WLOG] }

/-- A concrete store holding exactly `W1doc`. -/
def W1 : Store := { bugs := [W1doc], audits := [], counter := 1 }

/-- The empty store. -/
def emptyStore : Store := { bugs := [], audits := [], counter := 0 }

/-- `update_one` on a collection with no matching document modifies nothing
and reports `modified_count = 0`. -/
theorem updateFirst_of_forall_false (p : BugDoc → Bool) (f : BugDoc → BugDoc) :
    ∀ l : List BugDoc, (∀ b ∈ l, p b = false) → updateFirst p f l = (l, 0)
  | [], _ => rfl
  | b :: bs, h => by
    have hb : p b = false := h b (List.mem_cons_self _ _)
    have ih := updateFirst_of_forall_false p f bs
      (fun x hx => h x (List.mem_cons_of_mem _ hx))
    simp [updateFirst, hb, ih]

/-- `update_one` on a collection containing a matching document updates the
first such document in place and reports `modified_count = 1`. -/
theorem updateFirst_of_any (p : BugDoc → Bool) (f : BugDoc → BugDoc) :
    ∀ l : List BugDoc, l.any p = true →
      ∃ i b, l[i]? = some b ∧ p b = true ∧
        updateFirst p f l = (l.set i (f b), 1)
  | [], h => by simp at h
  | b :: bs, h => by
    by_cases hb : p b = true
    · exact ⟨0, b, by simp, hb, by simp [updateFirst, hb]⟩
    · have hb' : p b = false := by
        revert hb; cases p b <;> simp
      have hbs : bs.any p = true := by
        simpa [List.any_cons, hb'] using h
      obtain ⟨i, x, hg, hp, he⟩ := updateFirst_of_any p f bs hbs
      exact ⟨i + 1, x, by simpa using hg, hp, by simp [updateFirst, hb', he]⟩

/-- C2, as stated, is false: on a syntactically invalid identifier all three
of `add_test_log`, `update_bug_status` and `get_bug_by_id` construct
`ObjectId(bug_id)` first, which raises `InvalidId` — the fault propagates to
the caller instead of a `NotFound` result value. -/
theorem ops_fault_on_malformed_id :
    add_test_log emptyStore 0 "not-an-objectid" "passed" "details" =
      Except.error "InvalidId" ∧
    update_bug_status emptyStore 0 "not-an-objectid" "closed" =
      Except.error "InvalidId" ∧
    get_bug_by_id emptyStore "not-an-objectid" = Except.error "InvalidId" :=
  ⟨rfl, rfl, rfl⟩

/-- C2 amended: a well-formed identifier matching no record yields the
`NotFound` result value (`False` / `False` / `None`) without raising and
without modifying the store, while a syntactically invalid identifier makes
all three operations raise `InvalidId` to the caller (the presentation layer
catches it). -/
theorem notfound_for_missing_fault_for_malformed (s : Store) (now : Nat)
    (id st d ns : String) :
    (isValidObjectId id = false →
      add_test_log s now id st d = Except.error "InvalidId" ∧
      update_bug_status s now id ns = Except.error "InvalidId" ∧
      get_bug_by_id s id = Except.error "InvalidId") ∧
    (isValidObjectId id = true →
      (∀ b ∈ s.bugs, b._id ≠ strLower id) →
      add_test_log s now id st d = Except.ok (false, s) ∧
      update_bug_status s now id ns = Except.ok (false, s) ∧
      get_bug_by_id s id = Except.ok none) := by
  constructor
  · intro h
    refine ⟨?_, ?_, ?_⟩ <;>
      simp [add_test_log, update_bug_status, get_bug_by_id, parseObjectId, h]
  · intro h hmem
    have hall : ∀ b ∈ s.bugs, ((fun b => b._id == strLower id) b) = false :=
      fun b hb => beq_eq_false_iff_ne.mpr (hmem b hb)
    have hfind : s.bugs.find? (fun b => b._id == strLower id) = none :=
      List.find?_eq_none.mpr (fun b hb => by simp [hall b hb])
    refine ⟨?_, ?_, ?_⟩
    · have hupd := updateFirst_of_forall_false (fun b => b._id == strLower id)
        (fun b => { b with
          logs := b.logs ++
            [{ timestamp := now, status := strLower st, details := d }],
          updated_at := now }) s.bugs hall
      simp [add_test_log, parseObjectId, h, hupd]
    · have hupd := updateFirst_of_forall_false (fun b => b._id == strLower id)
        (fun b => { b with status := strLower ns, updated_at := now })
        s.bugs hall
      simp [update_bug_status, parseObjectId, h, hupd]
    · simp [get_bug_by_id, parseObjectId, h, hfind]

/-- C2 witness: the amended theorem applied at the empty store and the
concrete well-formed identifier `OID1`, and at a malformed identifier. -/
theorem notfound_for_missing_fault_for_malformed_witness :
    (add_test_log emptyStore 0 OID1 "passed" "details" =
      Except.ok (false, emptyStore)) ∧
    (get_bug_by_id emptyStore OID1 = Except.ok none) ∧
    (get_bug_by_id emptyStore "zzz" = Except.error "InvalidId") := by
  have h2 := (notfound_for_missing_fault_for_malformed emptyStore 0 OID1
    "passed" "details" "closed").2 (by decide)
    (by intro b hb; simp [emptyStore] at hb)
  have h1 := (notfound_for_missing_fault_for_malformed emptyStore 0 "zzz"
    "passed" "details" "closed").1 (by decide)
  exact ⟨h2.1, h2.2.2, h1.2.2⟩

/-- The Create Bug page handler (lines 360-374): refuses to call `create_bug`
when title, description or module is empty (Python truthiness, no trimming);
otherwise calls `create_bug` with the priority short code split off the
select-box label, `assignee or "Unassigned"` and `git_commit or None`. -/
def createBugPage (s : Store) (now : Nat)
    (title module severity priority assignee git_commit description : String) :
    Option (String × Store) :=
  if title == "" || description == "" || module == "" then none
  else
    some (create_bug s now title description severity
      ((priority.splitOn " - ").headD "") module
      (if assignee == "" then "Unassigned" else assignee)
      (if git_commit == "" then none else some git_commit))

/-- C3, as stated, is false: `create_bug` performs no validation at all — with
an empty title, empty description, empty module and an undefined severity it
still persists a record and returns an id. -/
theorem create_bug_persists_invalid_input :
    ((create_bug emptyStore 0 "" "" "not-a-severity" "P9" "" "x" none).2.bugs.length
      = 1) ∧
    ((create_bug emptyStore 0 "" "" "not-a-severity" "P9" "" "x" none).2.bugs.map
      (fun b => b.severity) = ["not-a-severity"]) := by
  constructor
  · rfl
  · rfl

/-- C3 amended: `create_bug` itself performs no input validation and always
persists exactly one new record (there is no `InvalidArgument` failure in the
core); the emptiness check on title, description and module exists only in the
presentation layer, whose Create Bug handler refuses to call `create_bug`
(persisting nothing) when any of the three is empty, and severity is
constrained only by the UI select box. -/
theorem create_bug_validation_only_in_ui (s : Store) (now : Nat)
    (title description severity priority module assignee git_commit : String)
    (gc : Option String) :
    ((create_bug s now title description severity priority module assignee
      gc).2.bugs.length = s.bugs.length + 1) ∧
    ((title == "" || description == "" || module == "") = true →
      createBugPage s now title module severity priority assignee git_commit
        description = none) := by
  constructor
  · simp [create_bug, log_audit_event]
  · intro h
    simp [createBugPage, h]

/-- C3 witness: the amended theorem applied at the empty store; the UI guard
hypothesis discharged at an empty title. -/
theorem create_bug_validation_only_in_ui_witness :
    ((create_bug emptyStore 0 "" "d" "high" "P1" "m" "a" none).2.bugs.length
      = emptyStore.bugs.length + 1) ∧
    createBugPage emptyStore 0 "" "m" "high" "P1" "a" "" "d" = none := by
  have h := create_bug_validation_only_in_ui emptyStore 0 "" "d" "high" "P1"
    "m" "a" "" none
  exact ⟨h.1, h.2 (by decide)⟩

/-- The `created_at`-descending comparison is transitive. -/
theorem createdDesc_trans (a b c : BugDoc) :
    createdDesc a b → createdDesc b c → createdDesc a c := by
  simp only [createdDesc, decide_eq_true_eq]
  omega

/-- The `created_at`-descending comparison is total. -/
theorem createdDesc_total (a b : BugDoc) :
    createdDesc a b || createdDesc b a := by
  simp only [createdDesc, Bool.or_eq_true, decide_eq_true_eq]
  omega

/-- C4: `list_bugs` constrains the store query only by the supplied,
non-`"All"` fields: with status filter `"open"` every returned record has
status `"open"`; with no filters it returns all records (up to order); in
general it returns exactly the records matching the query dict; and in every
case the result is sorted by `created_at` descending. -/
theorem list_bugs_filter_sort_spec (s : Store)
    (status module severity : Option String) :
    ((list_bugs s (some "open") module severity).all
      (fun b => b.status == "open") = true) ∧
    (list_bugs s none none none).Perm s.bugs ∧
    (list_bugs s status module severity).Perm
      (s.bugs.filter (listQuery status module severity)) ∧
    (list_bugs s status module severity).Sorted
      (fun a b => b.created_at ≤ a.created_at) := by
  refine ⟨?_, ?_, ?_, ?_⟩
  · rw [List.all_eq_true]
    intro b hb
    rw [list_bugs, List.mem_mergeSort] at hb
    have hq : listQuery (some "open") module severity b = true :=
      List.of_mem_filter hb
    have hst : statusConstraint (some "open") b = true := by
      simp only [listQuery, Bool.and_eq_true] at hq
      exact hq.1.1
    simpa [statusConstraint, strLower] using hst
  · have hfilter : s.bugs.filter (listQuery none none none) = s.bugs :=
      List.filter_eq_self.mpr (fun b _ => rfl)
    rw [list_bugs, hfilter]
    exact List.mergeSort_perm s.bugs createdDesc
  · exact List.mergeSort_perm (s.bugs.filter (listQuery status module severity))
      createdDesc
  · have hp := List.sorted_mergeSort createdDesc_trans createdDesc_total
      (s.bugs.filter (listQuery status module severity))
    exact hp.imp (fun h => of_decide_eq_true h)

/-- C5, as stated, is false: `update_bug_status` does not require the new
status to be one of the four defined values — on an existing record it
reports success and stores the lower-cased undefined value `"bogus"`. -/
theorem update_bug_status_accepts_undefined_value :
    ((update_bug_status W1 5 OID1 "BOGUS").toOption.map
      (fun r => (r.1, r.2.bugs.map (fun b => b.status)))) =
      some (true, ["bogus"]) ∧
    "bogus" ∉ ["open", "in-progress", "resolved", "closed"] := by
  exact ⟨rfl, by decide⟩

/-- C5 amended: `update_bug_status` performs no validation of `new_status`:
for every string it lower-cases it and stores it on the matched record
(refreshing `updated_at`), reporting success — so any transition between any
two status strings, including backward transitions, is permitted, and the
restriction to the four defined values is enforced only by the UI select
boxes. -/
theorem update_bug_status_stores_any_lowercased (s : Store) (now : Nat)
    (id ns : String) (h : isValidObjectId id = true)
    (hmem : s.bugs.any (fun b => b._id == strLower id) = true) :
    ∃ i doc s',
      s.bugs[i]? = some doc ∧
      update_bug_status s now id ns = Except.ok (true, s') ∧
      s'.bugs = s.bugs.set i
        ({ doc with status := strLower ns, updated_at := now }) := by
  obtain ⟨i, doc, hg, hp, he⟩ := updateFirst_of_any
    (fun b => b._id == strLower id)
    (fun b => { b with status := strLower ns, updated_at := now }) s.bugs hmem
  refine ⟨i, doc,
    log_audit_event
      ({ s with bugs := (s.bugs.set i
          ({ doc with status := strLower ns, updated_at := now })) })
      now "UPDATE_STATUS" (some id) ("New Status: " ++ ns), hg, ?_, ?_⟩
  · simp [update_bug_status, parseObjectId, h, he]
  · simp [log_audit_event]

/-- C5 witness: the amended theorem applied at the concrete store `W1` and
its record `OID1`, with a backward transition target. -/
theorem update_bug_status_stores_any_lowercased_witness :
    ∃ i doc s',
      W1.bugs[i]? = some doc ∧
      update_bug_status W1 5 OID1 "Closed" = Except.ok (true, s') ∧
      s'.bugs = W1.bugs.set i
        ({ doc with status := strLower "Closed", updated_at := 5 }) :=
  update_bug_status_stores_any_lowercased W1 5 OID1 "Closed" (by decide)
    (by decide)

/-- C6: each successful mutation emits exactly one audit event of the right
action (`CREATE_BUG` for `create_bug`, `ADD_ACTIVITY` for `add_test_log`,
`UPDATE_STATUS` for `update_bug_status`), appended after the primary write;
a mutation that matched no record (`False` result) emits none. -/
theorem audit_one_event_per_successful_mutation (s : Store) (now : Nat)
    (id st d ns title description severity priority module assignee : String)
    (gc : Option String) :
    ((create_bug s now title description severity priority module assignee
      gc).2.audits = s.audits ++
        [{ timestamp := now, user := "admin", action := "CREATE_BUG",
           bug_id := some (create_bug s now title description severity
             priority module assignee gc).1,
           details := "Title: " ++ title }]) ∧
    (∀ r, add_test_log s now id st d = Except.ok r →
      r.2.audits = if r.1 then s.audits ++
        [{ timestamp := now, user := "admin", action := "ADD_ACTIVITY",
           bug_id := some id, details := "Type: " ++ st }] else s.audits) ∧
    (∀ r, update_bug_status s now id ns = Except.ok r →
      r.2.audits = if r.1 then s.audits ++
        [{ timestamp := now, user := "admin", action := "UPDATE_STATUS",
           bug_id := some id, details := "New Status: " ++ ns }] else s.audits)
    := by
  refine ⟨rfl, ?_, ?_⟩
  · intro r hr
    cases hpid : parseObjectId id with
    | none => simp [add_test_log, hpid] at hr
    | some oid =>
      simp only [add_test_log, hpid] at hr
      split at hr
      · injection hr with h'
        subst h'
        simp [log_audit_event]
      · injection hr with h'
        subst h'
        simp
  · intro r hr
    cases hpid : parseObjectId id with
    | none => simp [update_bug_status, hpid] at hr
    | some oid =>
      simp only [update_bug_status, hpid] at hr
      split at hr
      · injection hr with h'
        subst h'
        simp [log_audit_event]
      · injection hr with h'
        subst h'
        simp

/-- The concrete result of a successful `add_test_log` against `W1`. -/
def W1add : Bool × Store :=
  (add_test_log W1 5 OID1 "passed" "details").toOption.getD (false, W1)

/-- C6 witness: the audit theorem applied to the successful `add_test_log`
against the concrete store `W1`. -/
theorem audit_one_event_per_successful_mutation_witness :
    W1add.1 = true ∧
    W1add.2.audits = (if W1add.1 then W1.audits ++
      [{ timestamp := 5, user := "admin", action := "ADD_ACTIVITY",
         bug_id := some OID1, details := "Type: " ++ "passed" }]
      else W1.audits) := by
  refine ⟨rfl, ?_⟩
  exact (audit_one_event_per_successful_mutation W1 5 OID1 "passed" "details"
    "x" "t" "de" "sev" "pri" "mo" "as" none).2.1 W1add rfl

/-- The three sequential client-side filters equal one filter by the
conjunction of the active predicates. -/
theorem clientFilter_eq_filter (pf af q : String) (bugs : List BugDoc) :
    clientFilter pf af q bugs = bugs.filter (fun b =>
      (pf == "All" || priorityPred pf b) &&
      ((af == "" || assigneePred af b) && (q == "" || searchPred q b))) := by
  unfold clientFilter
  cases h1 : (pf == "All") <;> cases h2 : (af == "") <;> cases h3 : (q == "") <;>
    simp only [beq_iff_eq, beq_eq_false_iff_ne, ne_eq] at h1 h2 h3 <;>
    simp [h1, h2, h3, beq_iff_eq, List.filter_filter, Bool.and_assoc] <;>
    exact List.filter_congr (fun b _ => by
      cases priorityPred pf b <;> cases assigneePred af b <;>
        cases searchPred q b <;> rfl)

/-- C7: the layered in-memory filters (priority exact match, assignee
substring, global search) drop non-matching elements only (the result is a
sublist of the input, preserving relative order), their composition equals
one filter by the logical AND of the active predicates, and applying zero
in-memory filters is the identity. -/
theorem clientFilter_and_composition (pf af q : String) (bugs : List BugDoc) :
    (clientFilter pf af q bugs = bugs.filter (fun b =>
      (pf == "All" || priorityPred pf b) &&
      ((af == "" || assigneePred af b) && (q == "" || searchPred q b)))) ∧
    (clientFilter pf af q bugs).Sublist bugs ∧
    clientFilter "All" "" "" bugs = bugs := by
  have hmain := clientFilter_eq_filter pf af q bugs
  exact ⟨hmain, hmain ▸ List.filter_sublist bugs, rfl⟩

/-- C8, as stated, is false: the export does not drop the `logs` sequence —
the `logs` column is part of the tabular output and a record's serialized
logs land in its row (the code only restringifies `_id`; no key is removed
from the copied documents). -/
theorem export_includes_logs_column :
    "logs" ∈ bugColumns ∧
    export_bugs_to_csv [W1doc] = some [bugColumns, bugRow W1doc] ∧
    logsToString W1doc.logs ∈ bugRow W1doc ∧
    W1doc.logs ≠ [] := by
  refine ⟨by decide, rfl, by decide, by decide⟩

/-- C8 amended: `export_bugs_to_csv` on the empty list returns an absent
payload (`None`) without error; on every non-empty list of N well-formed
records it produces exactly N+1 rows — one constant header row (stable
column order) followed by one row per record, all of the same width —
projecting every top-level field; the `logs` sequence is serialized into its
own column rather than dropped, and only `_id` is stringified. -/
theorem export_rows_header_count (b : BugDoc) (bs : List BugDoc) :
    export_bugs_to_csv ([] : List BugDoc) = none ∧
    export_bugs_to_csv (b :: bs) = some (bugColumns :: (b :: bs).map bugRow) ∧
    ((export_bugs_to_csv (b :: bs)).getD []).length = (b :: bs).length + 1 ∧
    ((export_bugs_to_csv (b :: bs)).getD []).head? = some bugColumns ∧
    (((export_bugs_to_csv (b :: bs)).getD []).all
      (fun row => row.length == bugColumns.length)) = true := by
  refine ⟨rfl, rfl, ?_, rfl, ?_⟩
  · simp [export_bugs_to_csv]
  · rw [List.all_eq_true]
    intro row hrow
    simp only [export_bugs_to_csv, Option.getD_some] at hrow
    rcases List.mem_cons.mp hrow with h | h
    · subst h
      rfl
    · obtain ⟨x, _, rfl⟩ := List.mem_map.mp h
      rfl

/-- C9, as stated, is false: priority is not stored as its short code as
supplied by the caller — `create_bug` lower-cases it, so `"P0"` is stored as
`"p0"` (and the argument is required, with no `"N/A"` default). -/
theorem priority_not_stored_as_supplied :
    ((create_bug emptyStore 0 "t" "d" "high" "P0" "m" "a" none).2.bugs.map
      (fun b => b.priority)) = ["p0"] ∧ "p0" ≠ "P0" := by
  exact ⟨rfl, by decide⟩

/-- C9 amended: `priority` is a required argument of `create_bug` and is
always stored lower-cased (e.g. `"P0"` is stored as `"p0"`), not as supplied;
the `"N/A"` default belongs to `git_commit`, not to priority. -/
theorem priority_required_and_lowercased (s : Store) (now : Nat)
    (title description severity priority module assignee : String)
    (gc : Option String) :
    (∃ doc, (create_bug s now title description severity priority module
        assignee gc).2.bugs = s.bugs ++ [doc] ∧
      doc.priority = strLower priority) ∧
    (∃ doc, (create_bug s now title description severity priority module
        assignee none).2.bugs = s.bugs ++ [doc] ∧
      doc.git_commit = "N/A") := by
  exact ⟨⟨_, rfl, rfl⟩, ⟨_, rfl, rfl⟩⟩

/-- The export loop only appends fresh cells to the heap: the original cells
stay in place. -/
theorem exportLoop_cells_extend (bugs : List Nat) :
    ∀ (h : Heap) (clean : List Nat),
      ∃ ext, (exportLoop h bugs clean).1.cells = h.cells ++ ext := by
  induction bugs with
  | nil =>
    intro h clean
    exact ⟨[], by simp [exportLoop]⟩
  | cons a rest ih =>
    intro h clean
    cases hr : h.read a with
    | none =>
      obtain ⟨ext, he⟩ := ih h clean
      exact ⟨ext, by simp [exportLoop, hr, he]⟩
    | some b =>
      have hset : (h.cells ++ [b]).set h.cells.length
          ({ b with _id := IdVal.strv (strOfIdVal b._id) }) =
          h.cells ++ [{ b with _id := IdVal.strv (strOfIdVal b._id) }] := by
        rw [List.set_append_right _ _ (Nat.le_refl _)]
        simp
      obtain ⟨ext, he⟩ :=
        ih ⟨h.cells ++ [{ b with _id := IdVal.strv (strOfIdVal b._id) }]⟩
          (clean ++ [h.cells.length])
      refine ⟨{ b with _id := IdVal.strv (strOfIdVal b._id) } :: ext, ?_⟩
      simp only [exportLoop, hr, Heap.alloc, Heap.write, hset] at he ⊢
      rw [he]
      simp

/-- C10: `export_bugs_to_csv` leaves the caller's records unmodified: the
loop copies each record before stringifying its identifier, so after the call
the prefix of the heap holding the input records is exactly what it was
before the call (every field of every input record, `_id` included, is
unchanged); the heap only grows by the fresh copies. -/
theorem export_preserves_caller_records (h : Heap) (bugs : List Nat) :
    (export_bugs_to_csv_h h bugs).1.cells.take h.cells.length = h.cells ∧
    ∃ ext, (export_bugs_to_csv_h h bugs).1.cells = h.cells ++ ext := by
  have hext : ∃ ext, (export_bugs_to_csv_h h bugs).1.cells = h.cells ++ ext := by
    cases bugs with
    | nil => exact ⟨[], by simp [export_bugs_to_csv_h]⟩
    | cons a rest =>
      obtain ⟨ext, he⟩ := exportLoop_cells_extend (a :: rest) h []
      exact ⟨ext, by simpa [export_bugs_to_csv_h] using he⟩
  obtain ⟨ext, he⟩ := hext
  refine ⟨?_, ⟨ext, he⟩⟩
  rw [he]
  exact List.take_left _ _
